import Mathlib

/-!
Shallow embedding of the SOP document renderer (`src/main.py`).

The renderer walks a JSON-decoded content tree and emits docx paragraphs and
tables.  We model a paragraph by the observable attributes the renderer sets
(runs with bold/italic/size, indents in twips, bottom border for horizontal
rules, numbering level) and each `add_*` helper of the source as a pure
function producing such a paragraph.  The stateful section walk of
`generate_sop_doc` becomes a structurally recursive function threading the
`last_label` / `had_bullets_after_label` / `last_step_level` state exactly as
the source does.
-/

namespace SopDoc

/-- A text run with the character formatting the source sets via `add_run`. -/
structure TextRun where
  text : String
  bold : Bool := false
  italic : Bool := false
  size : Nat := 11
deriving DecidableEq, Repr

/-- A paragraph: its runs plus the paragraph-level formatting the source sets
(indents in twips, a bottom border for horizontal rules, a numbering level
reference for numbered steps, centering for footer lines). -/
structure Para where
  runs : List TextRun := []
  leftIndent : Option Int := none
  firstLineIndent : Option Int := none
  hasBottomBorder : Bool := false
  numIlvl : Option Int := none
  alignCenter : Bool := false
deriving DecidableEq, Repr

/-! ## String primitives

The Python string methods the renderer uses (`strip`, `lower`, `endswith`,
`partition(':')`, `split('|||')`, `in`), implemented by structural recursion
over the character list so that every use is kernel-computable. -/

/-- The whitespace characters `str.strip()` removes (ASCII). -/
def isSpaceChar (c : Char) : Bool :=
  c = ' ' || c = '\t' || c = '\r' || c = '\n'

/-- `str.strip()`. -/
def pyStrip (s : String) : String :=
  ⟨((s.data.dropWhile isSpaceChar).reverse.dropWhile isSpaceChar).reverse⟩

/-- ASCII lowercasing of one character. -/
def lowerChar (c : Char) : Char :=
  if 'A' ≤ c ∧ c ≤ 'Z' then Char.ofNat (c.toNat + 32) else c

/-- `str.lower()`. -/
def pyLower (s : String) : String := ⟨s.data.map lowerChar⟩

/-- `str.endswith(suffix)`. -/
def pyEndsWith (s suffix : String) : Bool := suffix.data.isSuffixOf s.data

/-- `str[:-n]` for `n ≤ len`, i.e. drop the last `n` characters. -/
def pyDropRight (s : String) (n : Nat) : String := ⟨s.data.take (s.data.length - n)⟩

/-- `c in str`. -/
def pyContains (s : String) (c : Char) : Bool := s.data.contains c

/-- The characters before the first colon (`text.partition(':')[0]`). -/
def beforeColon : List Char → List Char
  | [] => []
  | c :: rest => if c = ':' then [] else c :: beforeColon rest

/-- The characters after the first colon (`text.partition(':')[2]`). -/
def afterColon : List Char → List Char
  | [] => []
  | c :: rest => if c = ':' then rest else afterColon rest

/-- `str.split('|||')` on the character list. -/
def splitPipes : List Char → List (List Char)
  | '|' :: '|' :: '|' :: rest => [] :: splitPipes rest
  | c :: rest =>
    match splitPipes rest with
    | [] => [[c]]
    | g :: gs => (c :: g) :: gs
  | [] => [[]]

/-- `str.split('|||')`. -/
def pySplitPipes (s : String) : List String := (splitPipes s.data).map (fun l => ⟨l⟩)

/-- `STEP_INDENTS` dict of the source, as the total function realised by
`STEP_INDENTS.get(level, STEP_INDENTS[5])` (the only way the dict is read). -/
def STEP_INDENTS (level : Int) : Int × Int :=
  if level = 1 then (720, 360)
  else if level = 2 then (1440, 360)
  else if level = 3 then (2160, 180)
  else if level = 4 then (2880, 360)
  else (3600, 360)

/-- `BULLET_INDENT` constant of the source (defined there but never read by
`add_bullet`, which hard-codes its own arithmetic). -/
def BULLET_INDENT : Int × Int := (360, 360)

/-- One `w:lvl` row of the abstract numbering definition built by
`create_numbering_definitions`. -/
structure LevelConfig where
  ilvl : Nat
  numFmt : String
  lvlText : String
  lvlJc : String
  left : Int
  hanging : Int
deriving DecidableEq, Repr

/-- The `level_configs` table of `create_numbering_definitions`. -/
def level_configs : List LevelConfig :=
  [ { ilvl := 0, numFmt := "decimal", lvlText := "%1.", lvlJc := "left", left := 720, hanging := 360 },
    { ilvl := 1, numFmt := "lowerLetter", lvlText := "%2.", lvlJc := "left", left := 1440, hanging := 360 },
    { ilvl := 2, numFmt := "lowerRoman", lvlText := "%3.", lvlJc := "right", left := 2160, hanging := 180 },
    { ilvl := 3, numFmt := "decimal", lvlText := "%4.", lvlJc := "left", left := 2880, hanging := 360 },
    { ilvl := 4, numFmt := "lowerLetter", lvlText := "%5.", lvlJc := "left", left := 3600, hanging := 360 } ]

/-- The numbering-geometry left indent declared for a 1-based step level
(looked up in `level_configs` by zero-based `ilvl`). -/
def geometryLeft (level : Int) : Option Int :=
  (level_configs.find? (fun c => (c.ilvl : Int) = level - 1)).map (fun c => c.left)

/-- `add_horizontal_rule`: an empty paragraph with a single bottom border. -/
def add_horizontal_rule : Para :=
  { hasBottomBorder := true }

/-- `add_empty_paragraph`: a blank paragraph used for visual spacing. -/
def add_empty_paragraph : Para := {}

/-- `add_text_paragraph`: a simple text paragraph (one run, optional bold). -/
def add_text_paragraph (text : String) (bold : Bool := false) (size : Nat := 11) : Para :=
  { runs := [{ text := text, bold := bold, size := size }] }

/-- `add_labelled_paragraph`: bold `"label: "` run then, if the value is
non-empty, a plain value run. -/
def add_labelled_paragraph (label value : String) : Para :=
  { runs := [{ text := label ++ ": ", bold := true }] ++
      (if value ≠ "" then [{ text := value : TextRun }] else []) }

/-- `add_label_only`: a single bold `"label:"` run. -/
def add_label_only (label : String) : Para :=
  { runs := [{ text := label ++ ":", bold := true }] }

/-- `add_bullet`: a hanging-indent paragraph, left indent
`720 + indent_level*720` twips, first-line indent `-360`, bold bullet glyph
run followed by a plain text run. -/
def add_bullet (text : String) (indent_level : Nat) : Para :=
  { runs := [{ text := "• ", bold := true }, { text := text }],
    leftIndent := some (720 + (indent_level : Int) * 720),
    firstLineIndent := some (-360) }

/-- `add_numbered_step`: a paragraph referencing the numbering definition at
zero-based level `level - 1`, with one plain run. -/
def add_numbered_step (text : String) (level : Int) : Para :=
  { runs := [{ text := text }], numIlvl := some (level - 1) }

/-- `add_note`: an italic paragraph whose left indent is the
`STEP_INDENTS` left value of the preceding step level. -/
def add_note (text : String) (preceding_level : Int) : Para :=
  { runs := [{ text := text, italic := true }],
    leftIndent := some (STEP_INDENTS preceding_level).1 }

/-! ## Revision table (`add_revision_table`) -/

/-- A table cell with the attributes the source sets. -/
structure Cell where
  text : String
  bold : Bool := false
  width : Int := 0
  topBorder : Bool := false
  bottomBorder : Bool := false
deriving DecidableEq, Repr

/-- A table row. -/
structure TableRow where
  cells : List Cell
deriving DecidableEq, Repr

/-- A content item as decoded from JSON: a dict with the keys the renderer
reads (each with its `get` default), a bare string, or anything else. -/
structure ItemDict where
  type : String := "text"
  text : Option String := none
  level : Int := 1
  date : String := ""
  revised_by : String := ""
  description : String := ""
deriving DecidableEq, Repr

inductive CItem where
  | dict (d : ItemDict)
  | str (s : String)
  | other
deriving DecidableEq, Repr

/-- Column widths in pct units (`col_widths_pct` in the source). -/
def col_widths_pct : List Int := [1372, 987, 2641]

/-- The header labels of the revision table. -/
def revision_headers : List String := ["Date", "Revised By", "Description"]

/-- The header row: bold cells carrying a bottom border. -/
def revisionHeaderRow : TableRow :=
  ⟨(revision_headers.zip col_widths_pct).map fun hw =>
    { text := hw.1, bold := true, width := hw.2, bottomBorder := true }⟩

/-- The `values` list computed for one raw row: dict with a `text` key splits
it on `"|||"` and strips the parts; a plain dict reads the three fields; a
bare string splits like the text key; anything else yields three empties. -/
def rowValues : CItem → List String
  | CItem.dict d =>
    match d.text with
    | some t => (pySplitPipes t).map pyStrip
    | none => [d.date, d.revised_by, d.description]
  | CItem.str s => (pySplitPipes s).map pyStrip
  | CItem.other => ["", "", ""]

/-- Pad with empty strings up to length 3, then keep the first 3 values
(the `while len(values) < 3` loop followed by `values[:3]`). -/
def padTo3 (vs : List String) : List String :=
  (vs ++ List.replicate (3 - vs.length) "").take 3

/-- One data row: plain cells, top border exactly on the first data row. -/
def mkDataRow (rd : CItem) (row_idx : Nat) : TableRow :=
  ⟨((padTo3 (rowValues rd)).zip col_widths_pct).map fun vw =>
    { text := vw.1, width := vw.2, topBorder := decide (row_idx = 0) }⟩

/-- The `enumerate(rows_data)` loop over data rows. -/
def revisionDataRows : List CItem → Nat → List TableRow
  | [], _ => []
  | rd :: rest, idx => mkDataRow rd idx :: revisionDataRows rest (idx + 1)

/-- `add_revision_table`: header row followed by one row per raw data row. -/
def add_revision_table (rows_data : List CItem) : List TableRow :=
  revisionHeaderRow :: revisionDataRows rows_data 0

/-! ## Footer (`setup_footer`) -/

/-- The two footers of the document section. -/
structure Footer where
  default_paras : List Para
  first_page_paras : List Para
deriving DecidableEq, Repr

/-- `setup_footer`: default footer is blank line, centered `"title [id]"`
line and centered revision-date line (both 10pt); first-page footer is one
blank paragraph. -/
def setup_footer (sop_title sop_id revision_date : String) : Footer :=
  { default_paras :=
      [ {},
        { runs := [{ text := sop_title ++ " [" ++ sop_id ++ "]", size := 10 }],
          alignCenter := true },
        { runs := [{ text := "Revision Date: " ++ revision_date, size := 10 }],
          alignCenter := true } ],
    first_page_paras := [{}] }

/-! ## Label-spacing heuristic -/

/-- `LABELS_NEEDING_SPACE_AFTER` (a set in the source; order is irrelevant
because the matching loop emits one paragraph and breaks). -/
def LABELS_NEEDING_SPACE_AFTER : List String :=
  [ "Objective", "Objectives",
    "Process Owner", "Process Owners", "Process Owner(s)",
    "Input", "Inputs", "Input(s)",
    "Dependency", "Dependencies", "Dependency(ies)" ]

/-- `normalize_label`: strip, drop a trailing `"(s)"`, rewrite a trailing
`"(ies)"` to `"y"`, drop a trailing bare `"s"` unless the word ends in
`"ss"`, then lowercase. -/
def normalize_label (label : String) : String :=
  let l0 := pyStrip label
  let l1 := if pyEndsWith l0 "(s)" then pyDropRight l0 3 else l0
  let l2 := if pyEndsWith l1 "(ies)" then pyDropRight l1 5 ++ "y" else l1
  let l3 := if pyEndsWith l2 "s" && !(pyEndsWith l2 "ss") then pyDropRight l2 1 else l2
  pyLower l3

/-- The guard of the blank-line insertion before a new label: the previous
label is set and truthy, bullets were emitted after it, the two labels
normalize differently, and the previous label normalizes like a trigger
label. -/
def spaceBefore (lastLabel : Option String) (hadBullets : Bool) (newLabel : String) : Bool :=
  match lastLabel with
  | none => false
  | some l =>
    (l != "") && hadBullets &&
      (normalize_label l != normalize_label newLabel) &&
      LABELS_NEEDING_SPACE_AFTER.any (fun t => normalize_label t == normalize_label l)

/-! ## Section content walk (`generate_sop_doc`, content loop) -/

/-- The part of a labelled item's text before the first colon, stripped
(`text.partition(':')[0].strip()`); the whole text when there is no colon. -/
def labelOf (text : String) : String :=
  if pyContains text ':' then pyStrip ⟨beforeColon text.data⟩ else text

/-- The part after the first colon, stripped; empty when there is no colon. -/
def valueOf (text : String) : String :=
  if pyContains text ':' then pyStrip ⟨afterColon text.data⟩ else ""

/-- The forward scan for `bullets_follow`: skip spacers (and non-dict items),
true at the first bullet/sub_bullet, false at any other item kind. -/
def bullets_follow : List CItem → Bool
  | [] => false
  | CItem.dict d :: rest =>
    if d.type = "bullet" ∨ d.type = "sub_bullet" then true
    else if d.type = "spacer" then bullets_follow rest
    else false
  | CItem.str _ :: rest => bullets_follow rest
  | CItem.other :: rest => bullets_follow rest

/-- The paragraph(s) a labelled item itself emits: with a colon, label-only
when bullets follow or the value is empty, otherwise label plus inline
value; without a colon, a plain text paragraph of the whole text. -/
def labelledHere (text : String) (rest : List CItem) : List Para :=
  if pyContains text ':' then
    if bullets_follow rest || valueOf text == "" then [add_label_only (labelOf text)]
    else [add_labelled_paragraph (labelOf text) (valueOf text)]
  else [add_text_paragraph text]

/-- `max(1, min(5, level))`. -/
def clampLevel (level : Int) : Int := max 1 (min 5 level)

/-- The content loop of `generate_sop_doc`: walks the items with the
`last_label`, `had_bullets_after_label` and `last_step_level` state, and
returns the emitted paragraphs together with the final step level. -/
def walkContent : List CItem → Option String → Bool → Int → List Para × Int
  | [], _, _, lvl => ([], lvl)
  | CItem.dict d :: rest, ll, hb, lvl =>
    let text := pyStrip (d.text.getD "")
    if text = "" ∧ d.type ≠ "spacer" then
      walkContent rest ll hb lvl
    else if d.type = "heading" then
      let out := walkContent rest none false lvl
      (add_text_paragraph text true :: add_empty_paragraph :: out.1, out.2)
    else if d.type = "labelled" then
      let nl := labelOf text
      let out := walkContent rest (some nl) false lvl
      ((if spaceBefore ll hb nl then [add_empty_paragraph] else []) ++
        labelledHere text rest ++ out.1, out.2)
    else if d.type = "bullet" then
      let out := walkContent rest ll true lvl
      (add_bullet text 0 :: out.1, out.2)
    else if d.type = "sub_bullet" then
      let out := walkContent rest ll true lvl
      (add_bullet text 1 :: out.1, out.2)
    else if d.type = "step" then
      let level := clampLevel d.level
      let out := walkContent rest none false level
      (add_numbered_step text level :: out.1, out.2)
    else if d.type = "note" then
      let out := walkContent rest ll hb lvl
      (add_empty_paragraph :: add_note text lvl :: add_empty_paragraph :: out.1, out.2)
    else if d.type = "spacer" then
      let out := walkContent rest ll hb lvl
      (add_empty_paragraph :: out.1, out.2)
    else
      let out := walkContent rest ll hb lvl
      (add_text_paragraph text :: out.1, out.2)
  | CItem.str _ :: rest, ll, hb, lvl => walkContent rest ll hb lvl
  | CItem.other :: rest, ll, hb, lvl => walkContent rest ll hb lvl

/-! ## Sections and document assembly -/

/-- A block of the document body: a paragraph or the revision table. -/
inductive Block where
  | para (p : Para)
  | table (t : List TableRow)
deriving DecidableEq, Repr

/-- A section as decoded from JSON, with each key's `get` default. -/
structure SectionData where
  heading : String := ""
  type : String := ""
  content : List CItem := []
deriving DecidableEq, Repr

/-- Render one section: optional bold heading plus blank line, then either
the revision table or the content walk (fresh label state, threaded step
level). -/
def renderSection (sec : SectionData) (lvl : Int) : List Block × Int :=
  let head : List Block :=
    if sec.heading ≠ "" then
      [Block.para (add_text_paragraph sec.heading true), Block.para add_empty_paragraph]
    else []
  if sec.type = "table" then
    (head ++ [Block.table (add_revision_table sec.content)], lvl)
  else
    let out := walkContent sec.content none false lvl
    (head ++ out.1.map Block.para, out.2)

/-- Render the section list: a horizontal rule after each section except the
last, threading the last step level across sections. -/
def renderSections : List SectionData → Int → List Block × Int
  | [], lvl => ([], lvl)
  | [s], lvl => renderSection s lvl
  | s :: t :: rest, lvl =>
    let fst := renderSection s lvl
    let snd := renderSections (t :: rest) fst.2
    (fst.1 ++ Block.para add_horizontal_rule :: snd.1, snd.2)

/-- The JSON request body, restricted to the keys `generate_sop_doc` reads;
`none` models an absent key. -/
structure SopData where
  title : Option String := none
  sop_id : Option String := none
  prepared_by : Option String := none
  approved_by : Option String := none
  revision_date : Option String := none
  sections : List SectionData := []
deriving DecidableEq, Repr

/-- `data.get('sop_id', '') or 'SOP-ID TBD'`. -/
def sopIdOf (data : SopData) : String :=
  if data.sop_id.getD "" = "" then "SOP-ID TBD" else data.sop_id.getD ""

/-- `data.get('title', 'Generated SOP')`. -/
def sopTitleOf (data : SopData) : String := data.title.getD "Generated SOP"

/-- `generate_sop_doc`: header block, sections with separating rules, and the
footer. -/
def generate_sop_doc (data : SopData) : List Block × Footer :=
  let sop_title := sopTitleOf data
  let sop_id := sopIdOf data
  let prepared_by := data.prepared_by.getD ""
  let approved_by := data.approved_by.getD ""
  let revision_date := data.revision_date.getD ""
  let header : List Block :=
    [ Block.para { runs := [{ text := "SOP Title: " ++ sop_title, bold := true, size := 18 }] },
      Block.para (add_text_paragraph ("SOP ID: " ++ sop_id)),
      Block.para add_empty_paragraph,
      Block.para (add_text_paragraph ("Prepared By: " ++ prepared_by)),
      Block.para (add_text_paragraph ("Approved By: " ++ approved_by)),
      Block.para (add_text_paragraph ("Revision Date: " ++ revision_date)),
      Block.para add_horizontal_rule ]
  (header ++ (renderSections data.sections 1).1,
   setup_footer sop_title sop_id revision_date)

/-- A block is a horizontal rule iff it is a paragraph with a bottom
border (only `add_horizontal_rule` sets one). -/
def isHRuleB : Block → Bool
  | Block.para p => p.hasBottomBorder
  | Block.table _ => false

/-! ## Walk branch equations -/

lemma walk_skip (d : ItemDict) (rest : List CItem) (ll : Option String) (hb : Bool) (lvl : Int)
    (h : pyStrip (d.text.getD "") = "") (h2 : d.type ≠ "spacer") :
    walkContent (CItem.dict d :: rest) ll hb lvl = walkContent rest ll hb lvl := by
  simp [walkContent, h, h2]

lemma walk_heading (d : ItemDict) (rest : List CItem) (ll : Option String) (hb : Bool) (lvl : Int)
    (ht : pyStrip (d.text.getD "") ≠ "") (hty : d.type = "heading") :
    walkContent (CItem.dict d :: rest) ll hb lvl
      = (add_text_paragraph (pyStrip (d.text.getD "")) true :: add_empty_paragraph ::
          (walkContent rest none false lvl).1,
         (walkContent rest none false lvl).2) := by
  simp [walkContent, ht, hty]

lemma walk_labelled (d : ItemDict) (rest : List CItem) (ll : Option String) (hb : Bool) (lvl : Int)
    (ht : pyStrip (d.text.getD "") ≠ "") (hty : d.type = "labelled") :
    walkContent (CItem.dict d :: rest) ll hb lvl
      = ((if spaceBefore ll hb (labelOf (pyStrip (d.text.getD ""))) then [add_empty_paragraph] else []) ++
          labelledHere (pyStrip (d.text.getD "")) rest ++
          (walkContent rest (some (labelOf (pyStrip (d.text.getD "")))) false lvl).1,
         (walkContent rest (some (labelOf (pyStrip (d.text.getD "")))) false lvl).2) := by
  simp [walkContent, ht, hty]

lemma walk_bullet_eq (d : ItemDict) (rest : List CItem) (ll : Option String) (hb : Bool) (lvl : Int)
    (ht : pyStrip (d.text.getD "") ≠ "") (hty : d.type = "bullet") :
    walkContent (CItem.dict d :: rest) ll hb lvl
      = (add_bullet (pyStrip (d.text.getD "")) 0 :: (walkContent rest ll true lvl).1,
         (walkContent rest ll true lvl).2) := by
  simp [walkContent, ht, hty]

lemma walk_sub_bullet_eq (d : ItemDict) (rest : List CItem) (ll : Option String) (hb : Bool) (lvl : Int)
    (ht : pyStrip (d.text.getD "") ≠ "") (hty : d.type = "sub_bullet") :
    walkContent (CItem.dict d :: rest) ll hb lvl
      = (add_bullet (pyStrip (d.text.getD "")) 1 :: (walkContent rest ll true lvl).1,
         (walkContent rest ll true lvl).2) := by
  simp [walkContent, ht, hty]

lemma walk_step_eq (d : ItemDict) (rest : List CItem) (ll : Option String) (hb : Bool) (lvl : Int)
    (ht : pyStrip (d.text.getD "") ≠ "") (hty : d.type = "step") :
    walkContent (CItem.dict d :: rest) ll hb lvl
      = (add_numbered_step (pyStrip (d.text.getD "")) (clampLevel d.level) ::
          (walkContent rest none false (clampLevel d.level)).1,
         (walkContent rest none false (clampLevel d.level)).2) := by
  simp [walkContent, ht, hty]

lemma walk_note_eq (d : ItemDict) (rest : List CItem) (ll : Option String) (hb : Bool) (lvl : Int)
    (ht : pyStrip (d.text.getD "") ≠ "") (hty : d.type = "note") :
    walkContent (CItem.dict d :: rest) ll hb lvl
      = (add_empty_paragraph :: add_note (pyStrip (d.text.getD "")) lvl :: add_empty_paragraph ::
          (walkContent rest ll hb lvl).1,
         (walkContent rest ll hb lvl).2) := by
  simp [walkContent, ht, hty]

lemma walk_spacer_eq (d : ItemDict) (rest : List CItem) (ll : Option String) (hb : Bool) (lvl : Int)
    (hty : d.type = "spacer") :
    walkContent (CItem.dict d :: rest) ll hb lvl
      = (add_empty_paragraph :: (walkContent rest ll hb lvl).1,
         (walkContent rest ll hb lvl).2) := by
  simp [walkContent, hty]

lemma walk_fallback_eq (d : ItemDict) (rest : List CItem) (ll : Option String) (hb : Bool) (lvl : Int)
    (ht : pyStrip (d.text.getD "") ≠ "")
    (h1 : d.type ≠ "heading") (h2 : d.type ≠ "labelled") (h3 : d.type ≠ "bullet")
    (h4 : d.type ≠ "sub_bullet") (h5 : d.type ≠ "step") (h6 : d.type ≠ "note")
    (h7 : d.type ≠ "spacer") :
    walkContent (CItem.dict d :: rest) ll hb lvl
      = (add_text_paragraph (pyStrip (d.text.getD "")) :: (walkContent rest ll hb lvl).1,
         (walkContent rest ll hb lvl).2) := by
  simp [walkContent, ht, h1, h2, h3, h4, h5, h6, h7]

/-! ## Structural helper lemmas -/

lemma labelledHere_no_border (text : String) (rest : List CItem) :
    ∀ p ∈ labelledHere text rest, p.hasBottomBorder = false := by
  intro p hp
  unfold labelledHere at hp
  split at hp
  · split at hp <;> simp_all [add_label_only, add_labelled_paragraph]
  · simp_all [add_text_paragraph]

lemma labelledHere_runs_ne (text : String) (rest : List CItem) :
    ∀ p ∈ labelledHere text rest, p.runs ≠ [] := by
  intro p hp
  unfold labelledHere at hp
  split at hp
  · split at hp <;> simp_all [add_label_only, add_labelled_paragraph]
  · simp_all [add_text_paragraph]

/-- No paragraph emitted by the content walk carries a bottom border:
horizontal rules come only from the section assembler. -/
lemma walk_no_border (items : List CItem) :
    ∀ (ll : Option String) (hb : Bool) (lvl : Int),
      ∀ p ∈ (walkContent items ll hb lvl).1, p.hasBottomBorder = false := by
  induction items with
  | nil => intro ll hb lvl p hp; simp [walkContent] at hp
  | cons it rest ih =>
    intro ll hb lvl p hp
    cases it with
    | str s => exact ih ll hb lvl p hp
    | other => exact ih ll hb lvl p hp
    | dict d =>
      by_cases hskip : pyStrip (d.text.getD "") = "" ∧ d.type ≠ "spacer"
      · rw [walk_skip d rest ll hb lvl hskip.1 hskip.2] at hp
        exact ih ll hb lvl p hp
      · by_cases hty : d.type = "spacer"
        · rw [walk_spacer_eq d rest ll hb lvl hty] at hp
          rcases List.mem_cons.mp hp with h | h
          · subst h; rfl
          · exact ih ll hb lvl p h
        · have ht : pyStrip (d.text.getD "") ≠ "" := by
            intro h0; exact hskip ⟨h0, hty⟩
          by_cases h1 : d.type = "heading"
          · rw [walk_heading d rest ll hb lvl ht h1] at hp
            rcases List.mem_cons.mp hp with h | h
            · subst h; rfl
            rcases List.mem_cons.mp h with h | h
            · subst h; rfl
            · exact ih none false lvl p h
          by_cases h2 : d.type = "labelled"
          · rw [walk_labelled d rest ll hb lvl ht h2] at hp
            rcases List.mem_append.mp hp with h | h
            · rcases List.mem_append.mp h with h | h
              · split at h
                · rcases List.mem_singleton.mp h with rfl; rfl
                · simp at h
              · exact labelledHere_no_border _ _ p h
            · exact ih _ false lvl p h
          by_cases h3 : d.type = "bullet"
          · rw [walk_bullet_eq d rest ll hb lvl ht h3] at hp
            rcases List.mem_cons.mp hp with h | h
            · subst h; rfl
            · exact ih ll true lvl p h
          by_cases h4 : d.type = "sub_bullet"
          · rw [walk_sub_bullet_eq d rest ll hb lvl ht h4] at hp
            rcases List.mem_cons.mp hp with h | h
            · subst h; rfl
            · exact ih ll true lvl p h
          by_cases h5 : d.type = "step"
          · rw [walk_step_eq d rest ll hb lvl ht h5] at hp
            rcases List.mem_cons.mp hp with h | h
            · subst h; rfl
            · exact ih none false (clampLevel d.level) p h
          by_cases h6 : d.type = "note"
          · rw [walk_note_eq d rest ll hb lvl ht h6] at hp
            rcases List.mem_cons.mp hp with h | h
            · subst h; rfl
            rcases List.mem_cons.mp h with h | h
            · subst h; rfl
            rcases List.mem_cons.mp h with h | h
            · subst h; rfl
            · exact ih ll hb lvl p h
          · rw [walk_fallback_eq d rest ll hb lvl ht h1 h2 h3 h4 h5 h6 hty] at hp
            rcases List.mem_cons.mp hp with h | h
            · subst h; rfl
            · exact ih ll hb lvl p h

/-- Bullet-run items for the C4 walk lemma. -/
def isBulletItem : CItem → Prop
  | CItem.dict d => (d.type = "bullet" ∨ d.type = "sub_bullet") ∧ pyStrip (d.text.getD "") ≠ ""
  | _ => False

/-- The paragraph a bullet-run item emits. -/
def bulletPara : CItem → Para
  | CItem.dict d => add_bullet (pyStrip (d.text.getD "")) (if d.type = "bullet" then 0 else 1)
  | _ => {}

/-- Walking a run of bullet items emits their paragraphs, keeps `last_label`,
and leaves `had_bullets_after_label` true when the run is non-empty. -/
lemma walk_bullet_list (bs : List CItem) (rest : List CItem) (ll : Option String) (hb : Bool)
    (lvl : Int) (h : ∀ b ∈ bs, isBulletItem b) :
    walkContent (bs ++ rest) ll hb lvl
      = (bs.map bulletPara ++ (walkContent rest ll (hb || !bs.isEmpty) lvl).1,
         (walkContent rest ll (hb || !bs.isEmpty) lvl).2) := by
  induction bs generalizing hb with
  | nil => simp
  | cons b bs ih =>
    cases b with
    | str s => exact absurd (h (CItem.str s) (by simp)) (by simp [isBulletItem])
    | other => exact absurd (h CItem.other (by simp)) (by simp [isBulletItem])
    | dict d =>
      have hd := h (CItem.dict d) (by simp)
      unfold isBulletItem at hd
      obtain ⟨hty, ht⟩ := hd
      have hrest : ∀ x ∈ bs, isBulletItem x := fun x hx => h x (by simp [hx])
      rcases hty with hty | hty
      · rw [List.cons_append, walk_bullet_eq d (bs ++ rest) ll hb lvl ht hty, ih true hrest]
        simp [bulletPara, hty]
      · rw [List.cons_append, walk_sub_bullet_eq d (bs ++ rest) ll hb lvl ht hty, ih true hrest]
        have hty' : d.type ≠ "bullet" := by rw [hty]; decide
        simp [bulletPara, hty, hty']

lemma bulletPara_runs_ne (bs : List CItem) (h : ∀ b ∈ bs, isBulletItem b) :
    ∀ p ∈ bs.map bulletPara, p.runs ≠ [] := by
  intro p hp
  rcases List.mem_map.mp hp with ⟨b, hb, rfl⟩
  have := h b hb
  cases b with
  | dict d => simp [bulletPara, add_bullet]
  | str s => exact absurd this (by simp [isBulletItem])
  | other => exact absurd this (by simp [isBulletItem])

lemma countP_labelledHere (text : String) (rest : List CItem) :
    (labelledHere text rest).countP (fun p => p.runs.isEmpty) = 0 := by
  rw [List.countP_eq_zero]
  intro p hp
  have h := labelledHere_runs_ne text rest p hp
  simp [List.isEmpty_iff, h]

lemma countP_bulletParas (bs : List CItem) (h : ∀ b ∈ bs, isBulletItem b) :
    (bs.map bulletPara).countP (fun p => p.runs.isEmpty) = 0 := by
  rw [List.countP_eq_zero]
  intro p hp
  have h2 := bulletPara_runs_ne bs h p hp
  simp [List.isEmpty_iff, h2]

lemma renderSections_cons_cons (s t : SectionData) (rest : List SectionData) (lvl : Int) :
    renderSections (s :: t :: rest) lvl
      = ((renderSection s lvl).1 ++
           Block.para add_horizontal_rule :: (renderSections (t :: rest) (renderSection s lvl).2).1,
         (renderSections (t :: rest) (renderSection s lvl).2).2) := rfl

/-- A section's own rendering never contains a horizontal rule. -/
lemma renderSection_no_rule (s : SectionData) (lvl : Int) :
    ∀ b ∈ (renderSection s lvl).1, isHRuleB b = false := by
  intro b hb
  simp only [renderSection] at hb
  split at hb
  · rcases List.mem_append.mp hb with h | h
    · split at h
      · rcases List.mem_cons.mp h with rfl | h
        · rfl
        rcases List.mem_cons.mp h with rfl | h
        · rfl
        · simp at h
      · simp at h
    · rcases List.mem_singleton.mp h with rfl; rfl
  · rcases List.mem_append.mp hb with h | h
    · split at h
      · rcases List.mem_cons.mp h with rfl | h
        · rfl
        rcases List.mem_cons.mp h with rfl | h
        · rfl
        · simp at h
      · simp at h
    · rcases List.mem_map.mp h with ⟨p, hp, rfl⟩
      exact walk_no_border s.content none false lvl p hp

lemma renderSections_countP (secs : List SectionData) (lvl : Int) :
    ((renderSections secs lvl).1).countP isHRuleB = secs.length - 1 := by
  induction secs generalizing lvl with
  | nil => simp [renderSections]
  | cons s rest ih =>
    cases rest with
    | nil =>
      show ((renderSection s lvl).1).countP isHRuleB = 0
      exact List.countP_eq_zero.mpr fun b hb => by simp [renderSection_no_rule s lvl b hb]
    | cons t rest =>
      rw [renderSections_cons_cons]
      simp only [List.countP_append, List.countP_cons]
      rw [List.countP_eq_zero.mpr fun b hb => by simp [renderSection_no_rule s lvl b hb]]
      rw [ih]
      simp [isHRuleB, add_horizontal_rule]

lemma renderSections_last (secs : List SectionData) (s : SectionData) (lvl : Int) :
    ∃ pre lvl2,
      renderSections (secs ++ [s]) lvl
        = (pre ++ (renderSection s lvl2).1, (renderSection s lvl2).2)
      ∧ pre.countP isHRuleB = secs.length := by
  induction secs generalizing lvl with
  | nil => exact ⟨[], lvl, by simp [renderSections], by simp⟩
  | cons a secs ih =>
    obtain ⟨pre, lvl2, heq, hcount⟩ := ih (renderSection a lvl).2
    refine ⟨(renderSection a lvl).1 ++ Block.para add_horizontal_rule :: pre, lvl2, ?_, ?_⟩
    · obtain ⟨t, rest, hsp⟩ : ∃ t rest, secs ++ [s] = t :: rest := by
        cases secs with
        | nil => exact ⟨s, [], rfl⟩
        | cons x xs => exact ⟨x, xs ++ [s], rfl⟩
      rw [List.cons_append, hsp, renderSections_cons_cons, ← hsp, heq]
      simp
    · rw [List.countP_append, List.countP_cons,
        List.countP_eq_zero.mpr fun b hb => by simp [renderSection_no_rule a lvl b hb], hcount]
      simp [isHRuleB, add_horizontal_rule]

lemma padTo3_length (vs : List String) : (padTo3 vs).length = 3 := by
  simp [padTo3]
  omega

lemma revisionDataRows_get (rows : List CItem) : ∀ (k i : Nat),
    (revisionDataRows rows k).get? i = (rows.get? i).map (fun rd => mkDataRow rd (k + i)) := by
  induction rows with
  | nil => intro k i; simp [revisionDataRows]
  | cons rd rest ih =>
    intro k i
    cases i with
    | zero => simp [revisionDataRows]
    | succ n =>
      have harith : k + 1 + n = k + (n + 1) := by omega
      rw [show revisionDataRows (rd :: rest) k = mkDataRow rd k :: revisionDataRows rest (k + 1)
          from rfl]
      rw [List.get?_cons_succ, ih (k + 1) n, harith, List.get?_cons_succ]

lemma mkDataRow_cells_length (rd : CItem) (i : Nat) : (mkDataRow rd i).cells.length = 3 := by
  simp [mkDataRow, padTo3_length, col_widths_pct]

lemma mkDataRow_texts (rd : CItem) (i : Nat) :
    (mkDataRow rd i).cells.map (fun c => c.text) = padTo3 (rowValues rd) := by
  simp only [mkDataRow, List.map_map]
  exact List.map_fst_zip _ _ (by rw [padTo3_length]; simp [col_widths_pct])

lemma mkDataRow_cell_borders (rd : CItem) (i : Nat) :
    ∀ c ∈ (mkDataRow rd i).cells, c.bottomBorder = false ∧ c.topBorder = decide (i = 0) := by
  intro c hc
  simp only [mkDataRow] at hc
  rcases List.mem_map.mp hc with ⟨vw, _, rfl⟩
  exact ⟨rfl, rfl⟩

lemma revisionHeaderRow_cells :
    ∀ c ∈ revisionHeaderRow.cells, c.bold = true ∧ c.bottomBorder = true ∧ c.topBorder = false := by
  intro c hc
  simp [revisionHeaderRow, revision_headers, col_widths_pct] at hc
  rcases hc with rfl | rfl | rfl <;> exact ⟨rfl, rfl, rfl⟩

/-! ## Claims -/

/-- C1, counterexample: the bullet paragraph for a level-0 Bullet has left
indent 720 twips, not the claimed `360 + 0*360 = 360`. -/
theorem C1_counterexample :
    (add_bullet "Facts" 0).leftIndent = some 720 ∧
    (add_bullet "Facts" 0).leftIndent ≠ some (360 + 0 * 360) := by decide

/-- C1, amended: every Bullet/SubBullet paragraph has left indent
`720 + indentLevel*720` twentieths of a point (not `360 + indentLevel*360`)
and first-line indent `-360`; the bullet glyph run is bold and the text run
is plain; the walk renders `bullet` at indent level 0 and `sub_bullet` at
indent level 1. -/
theorem C1_amended (text : String) (indent_level : Nat) :
    ((add_bullet text indent_level).leftIndent = some (720 + (indent_level : Int) * 720) ∧
     (add_bullet text indent_level).firstLineIndent = some (-360) ∧
     (add_bullet text indent_level).runs
       = [{ text := "• ", bold := true }, { text := text }]) ∧
    (∀ (d : ItemDict) (rest : List CItem) (ll : Option String) (hb : Bool) (lvl : Int),
       d.type = "bullet" → pyStrip (d.text.getD "") ≠ "" →
       walkContent (CItem.dict d :: rest) ll hb lvl
         = (add_bullet (pyStrip (d.text.getD "")) 0 :: (walkContent rest ll true lvl).1,
            (walkContent rest ll true lvl).2)) ∧
    (∀ (d : ItemDict) (rest : List CItem) (ll : Option String) (hb : Bool) (lvl : Int),
       d.type = "sub_bullet" → pyStrip (d.text.getD "") ≠ "" →
       walkContent (CItem.dict d :: rest) ll hb lvl
         = (add_bullet (pyStrip (d.text.getD "")) 1 :: (walkContent rest ll true lvl).1,
            (walkContent rest ll true lvl).2)) := by
  refine ⟨⟨rfl, rfl, rfl⟩, ?_, ?_⟩
  · intro d rest ll hb lvl hty ht
    exact walk_bullet_eq d rest ll hb lvl ht hty
  · intro d rest ll hb lvl hty ht
    exact walk_sub_bullet_eq d rest ll hb lvl ht hty

/-- C1, witness at a concrete bullet item. -/
theorem C1_witness :
    walkContent [CItem.dict { type := "bullet", text := some "alpha" }] none false 1
      = (add_bullet (pyStrip ((some "alpha").getD "")) 0 :: (walkContent [] none true 1).1,
         (walkContent [] none true 1).2) :=
  (C1_amended "alpha" 0).2.1 { type := "bullet", text := some "alpha" } [] none false 1 rfl
    (by decide)

/-- C2, counterexample: a labelled item with no colon is emitted by
`add_text_paragraph` (plain, no colon appended), which differs from the
label-only rendering `add_label_only` (bold, trailing colon). -/
theorem C2_counterexample :
    (walkContent [CItem.dict { type := "labelled", text := some "Overview" }] none false 1).1
      = [add_text_paragraph "Overview"] ∧
    [add_text_paragraph "Overview"] ≠ [add_label_only "Overview"] := by decide

/-- C2, amended: a labelled item whose text has no colon is emitted as one
plain (non-bold) text paragraph of the whole stripped text, with no colon
appended; the spacing state still records the whole text as the last
label. -/
theorem C2_amended (d : ItemDict) (rest : List CItem) (ll : Option String) (hb : Bool) (lvl : Int)
    (hty : d.type = "labelled") (ht : pyStrip (d.text.getD "") ≠ "")
    (hc : pyContains (pyStrip (d.text.getD "")) ':' = false) :
    walkContent (CItem.dict d :: rest) ll hb lvl
      = ((if spaceBefore ll hb (pyStrip (d.text.getD "")) then [add_empty_paragraph] else []) ++
          add_text_paragraph (pyStrip (d.text.getD "")) ::
          (walkContent rest (some (pyStrip (d.text.getD ""))) false lvl).1,
         (walkContent rest (some (pyStrip (d.text.getD ""))) false lvl).2) ∧
    (add_text_paragraph (pyStrip (d.text.getD ""))).runs
      = [{ text := pyStrip (d.text.getD "") }] := by
  have hl : labelOf (pyStrip (d.text.getD "")) = pyStrip (d.text.getD "") := by
    simp [labelOf, hc]
  have hlh : labelledHere (pyStrip (d.text.getD "")) rest
      = [add_text_paragraph (pyStrip (d.text.getD ""))] := by
    simp [labelledHere, hc]
  rw [walk_labelled d rest ll hb lvl ht hty, hl, hlh]
  refine ⟨?_, rfl⟩
  simp

/-- C2, witness at a concrete colon-free labelled item. -/
theorem C2_witness :
    walkContent [CItem.dict { type := "labelled", text := some "Overview" }] none false 1
      = ((if spaceBefore none false (pyStrip ((some "Overview").getD ""))
            then [add_empty_paragraph] else []) ++
          add_text_paragraph (pyStrip ((some "Overview").getD "")) ::
          (walkContent [] (some (pyStrip ((some "Overview").getD ""))) false 1).1,
         (walkContent [] (some (pyStrip ((some "Overview").getD ""))) false 1).2) ∧
    (add_text_paragraph (pyStrip ((some "Overview").getD ""))).runs
      = [{ text := pyStrip ((some "Overview").getD "") }] :=
  C2_amended { type := "labelled", text := some "Overview" } [] none false 1 rfl (by decide)
    (by decide)

/-- C3, counterexample: an item of unrecognized kind with non-empty text is
not skipped — the fallback branch emits a plain text paragraph for it. -/
theorem C3_counterexample :
    (walkContent [CItem.dict { type := "custom", text := some "hello" }] none false 1).1
      = [add_text_paragraph "hello"] ∧
    [add_text_paragraph "hello"] ≠ ([] : List Para) := by decide

/-- C3, amended: an item whose type tag is none of the recognized kinds is
rendered as a plain text paragraph when its stripped text is non-empty, and
skipped only when the stripped text is empty; in both cases the walk
continues (the render never fails on such an item). -/
theorem C3_amended (d : ItemDict) (rest : List CItem) (ll : Option String) (hb : Bool) (lvl : Int)
    (h1 : d.type ≠ "heading") (h2 : d.type ≠ "labelled") (h3 : d.type ≠ "bullet")
    (h4 : d.type ≠ "sub_bullet") (h5 : d.type ≠ "step") (h6 : d.type ≠ "note")
    (h7 : d.type ≠ "spacer") :
    (pyStrip (d.text.getD "") ≠ "" →
       walkContent (CItem.dict d :: rest) ll hb lvl
         = (add_text_paragraph (pyStrip (d.text.getD "")) :: (walkContent rest ll hb lvl).1,
            (walkContent rest ll hb lvl).2)) ∧
    (pyStrip (d.text.getD "") = "" →
       walkContent (CItem.dict d :: rest) ll hb lvl = walkContent rest ll hb lvl) :=
  ⟨fun ht => walk_fallback_eq d rest ll hb lvl ht h1 h2 h3 h4 h5 h6 h7,
   fun h0 => walk_skip d rest ll hb lvl h0 h7⟩

/-- C3, witness at a concrete unrecognized-kind item. -/
theorem C3_witness :
    walkContent [CItem.dict { type := "custom", text := some "hello" }] none false 1
      = (add_text_paragraph (pyStrip ((some "hello").getD "")) :: (walkContent [] none false 1).1,
         (walkContent [] none false 1).2) :=
  (C3_amended { type := "custom", text := some "hello" } [] none false 1 (by decide) (by decide)
    (by decide) (by decide) (by decide) (by decide) (by decide)).1 (by decide)

/-- C5: label normalization maps `"Objective"`, `"Objectives"` and
`"Objective(s)"` to the same string (lowercasing, stripping a trailing
`"(s)"`, turning a trailing `"(ies)"` into `"y"`, stripping a trailing bare
`"s"` unless the word ends in `"ss"`), and any two labels that normalize
equal are treated as the same label by the spacing heuristic: no blank
paragraph is inserted between them. -/
theorem C5_normalization :
    (normalize_label "Objective" = "objective" ∧
     normalize_label "Objectives" = "objective" ∧
     normalize_label "Objective(s)" = "objective" ∧
     normalize_label "OBJECTIVE" = "objective" ∧
     normalize_label "Dependenc(ies)" = "dependency" ∧
     normalize_label "Process" = "process") ∧
    ∀ (l l2 : String) (hb : Bool),
      normalize_label l = normalize_label l2 → spaceBefore (some l) hb l2 = false := by
  refine ⟨by decide, ?_⟩
  intro l l2 hb h
  simp [spaceBefore, h]

/-- C5, witness: equal-normalizing labels suppress the blank paragraph. -/
theorem C5_witness : spaceBefore (some "Objectives") true "Objective(s)" = false :=
  C5_normalization.2 "Objectives" "Objective(s)" true (by decide)

lemma spaceBefore_some (l : String) (hb : Bool) (nl : String) :
    spaceBefore (some l) hb nl
      = ((l != "") && hb && (normalize_label l != normalize_label nl) &&
          LABELS_NEEDING_SPACE_AFTER.any (fun t => normalize_label t == normalize_label l)) := rfl

/-- C4: in a section, a labelled item whose label normalizes like a trigger
label, followed by a non-empty run of bullet/sub_bullet items and then a
labelled item whose label normalizes differently, yields exactly one blank
paragraph, placed immediately before the second label's paragraph; the same
two labels with no bullets between them yield no blank paragraph. -/
theorem C4_trigger_label_spacing
    (d1 d2 : ItemDict) (bs : List CItem) (lvl : Int)
    (h1ty : d1.type = "labelled") (h2ty : d2.type = "labelled")
    (ht1 : pyStrip (d1.text.getD "") ≠ "") (ht2 : pyStrip (d2.text.getD "") ≠ "")
    (hbs : ∀ b ∈ bs, isBulletItem b) (hne : bs ≠ [])
    (hL1 : labelOf (pyStrip (d1.text.getD "")) ≠ "")
    (htrig : LABELS_NEEDING_SPACE_AFTER.any
        (fun t => normalize_label t == normalize_label (labelOf (pyStrip (d1.text.getD "")))) = true)
    (hdiff : normalize_label (labelOf (pyStrip (d1.text.getD "")))
        ≠ normalize_label (labelOf (pyStrip (d2.text.getD "")))) :
    ((walkContent (CItem.dict d1 :: (bs ++ [CItem.dict d2])) none false lvl).1
       = labelledHere (pyStrip (d1.text.getD "")) (bs ++ [CItem.dict d2]) ++
         bs.map bulletPara ++
         add_empty_paragraph :: labelledHere (pyStrip (d2.text.getD "")) [] ∧
     ((walkContent (CItem.dict d1 :: (bs ++ [CItem.dict d2])) none false lvl).1).countP
         (fun p => p.runs.isEmpty) = 1) ∧
    ((walkContent [CItem.dict d1, CItem.dict d2] none false lvl).1
       = labelledHere (pyStrip (d1.text.getD "")) [CItem.dict d2] ++
         labelledHere (pyStrip (d2.text.getD "")) [] ∧
     ((walkContent [CItem.dict d1, CItem.dict d2] none false lvl).1).countP
         (fun p => p.runs.isEmpty) = 0) := by
  have hsb : spaceBefore (some (labelOf (pyStrip (d1.text.getD "")))) true
      (labelOf (pyStrip (d2.text.getD ""))) = true := by
    rw [spaceBefore_some, htrig]
    simp [hL1, hdiff]
  have hsb0 : spaceBefore (some (labelOf (pyStrip (d1.text.getD "")))) false
      (labelOf (pyStrip (d2.text.getD ""))) = false := by
    rw [spaceBefore_some]
    simp
  have hbe : bs.isEmpty = false := by
    cases bs with
    | nil => exact absurd rfl hne
    | cons b bs => rfl
  have e2 : walkContent [CItem.dict d2] (some (labelOf (pyStrip (d1.text.getD "")))) true lvl
      = (add_empty_paragraph :: labelledHere (pyStrip (d2.text.getD "")) [], lvl) := by
    rw [walk_labelled d2 [] _ true lvl ht2 h2ty, hsb]
    simp [walkContent]
  have e3 : walkContent (bs ++ [CItem.dict d2]) (some (labelOf (pyStrip (d1.text.getD "")))) false lvl
      = (bs.map bulletPara ++
          add_empty_paragraph :: labelledHere (pyStrip (d2.text.getD "")) [], lvl) := by
    rw [walk_bullet_list bs [CItem.dict d2] _ false lvl hbs, hbe]
    simp only [Bool.not_false, Bool.false_or]
    rw [e2]
  have e1 : walkContent (CItem.dict d1 :: (bs ++ [CItem.dict d2])) none false lvl
      = (labelledHere (pyStrip (d1.text.getD "")) (bs ++ [CItem.dict d2]) ++
          bs.map bulletPara ++
          add_empty_paragraph :: labelledHere (pyStrip (d2.text.getD "")) [], lvl) := by
    rw [walk_labelled d1 (bs ++ [CItem.dict d2]) none false lvl ht1 h1ty, e3]
    simp [spaceBefore]
  have e2b : walkContent [CItem.dict d2] (some (labelOf (pyStrip (d1.text.getD "")))) false lvl
      = (labelledHere (pyStrip (d2.text.getD "")) [], lvl) := by
    rw [walk_labelled d2 [] _ false lvl ht2 h2ty, hsb0]
    simp [walkContent]
  have e1b : walkContent [CItem.dict d1, CItem.dict d2] none false lvl
      = (labelledHere (pyStrip (d1.text.getD "")) [CItem.dict d2] ++
          labelledHere (pyStrip (d2.text.getD "")) [], lvl) := by
    rw [show ([CItem.dict d1, CItem.dict d2] : List CItem)
          = CItem.dict d1 :: [CItem.dict d2] from rfl,
        walk_labelled d1 [CItem.dict d2] none false lvl ht1 h1ty, e2b]
    simp [spaceBefore]
  refine ⟨⟨?_, ?_⟩, ?_, ?_⟩
  · rw [e1]
  · rw [e1]
    simp only [List.countP_append, List.countP_cons, countP_labelledHere,
      countP_bulletParas bs hbs]
    rfl
  · rw [e1b]
  · rw [e1b]
    simp only [List.countP_append, countP_labelledHere]

/-- C4, witness: a concrete trigger run with one bullet gets exactly one
blank paragraph inserted. -/
theorem C4_witness :
    ((walkContent
        (CItem.dict { type := "labelled", text := some "Process Owners:" } ::
          ([CItem.dict { type := "bullet", text := some "Team A" }] ++
            [CItem.dict { type := "labelled", text := some "Inputs: data feed" }]))
        none false 1).1).countP (fun p => p.runs.isEmpty) = 1 :=
  (C4_trigger_label_spacing
    { type := "labelled", text := some "Process Owners:" }
    { type := "labelled", text := some "Inputs: data feed" }
    [CItem.dict { type := "bullet", text := some "Team A" }] 1
    rfl rfl (by decide) (by decide)
    (by
      intro b hb
      rcases List.mem_singleton.mp hb with rfl
      exact ⟨Or.inl rfl, by decide⟩)
    (by simp)
    (by decide) (by decide) (by decide)).1.2

/-- C6, counterexample: a Note item whose text is empty is skipped by the
empty-text guard and emits nothing, contradicting "every Note item emits a
blank paragraph, an italic paragraph and another blank paragraph". -/
theorem C6_counterexample :
    (walkContent [CItem.dict { type := "note", text := some "" }] none false 1).1 = [] ∧
    ([] : List Para) ≠ [add_empty_paragraph, add_note "" 1, add_empty_paragraph] := by decide

/-- C6, amended: every Note item with non-empty stripped text emits a blank
paragraph, an italic note paragraph indented to the numbering-geometry left
indent of the current last-step level, and another blank paragraph; the
last-step level is threaded across sections by the assembler and starts at
1, so a Note in a later section aligns to the most recent Step of any prior
section and to level 1 when no Step was rendered. -/
theorem C6_amended (t : String) (ht : pyStrip t ≠ "") (L : Int) (hL1 : 1 ≤ L) (hL5 : L ≤ 5) :
    (∀ (d : ItemDict) (rest : List CItem) (ll : Option String) (hb : Bool) (lvl : Int),
       d.type = "note" → pyStrip (d.text.getD "") ≠ "" →
       walkContent (CItem.dict d :: rest) ll hb lvl
         = (add_empty_paragraph :: add_note (pyStrip (d.text.getD "")) lvl ::
             add_empty_paragraph :: (walkContent rest ll hb lvl).1,
            (walkContent rest ll hb lvl).2)) ∧
    (add_note (pyStrip t) L).leftIndent = some (STEP_INDENTS L).1 ∧
    geometryLeft L = some (STEP_INDENTS L).1 ∧
    Block.para (add_note (pyStrip t) L)
      ∈ (generate_sop_doc
          { sections :=
              [ { content := [CItem.dict { type := "step", text := some "x", level := L }] },
                { content := [CItem.dict { type := "note", text := some t }] } ] }).1 ∧
    Block.para (add_note (pyStrip t) 1)
      ∈ (generate_sop_doc
          { sections := [ { content := [CItem.dict { type := "note", text := some t }] } ] }).1 ∧
    (add_note (pyStrip t) 1).leftIndent = some 720 := by
  have hclamp : clampLevel L = L := by
    unfold clampLevel
    omega
  have hx : pyStrip ((some "x").getD "") ≠ "" := by decide
  have hw1 : walkContent [CItem.dict { type := "step", text := some "x", level := L }]
        none false 1
      = ([add_numbered_step (pyStrip "x") L], L) := by
    rw [walk_step_eq { type := "step", text := some "x", level := L } [] none false 1 hx rfl]
    show (add_numbered_step (pyStrip "x") (clampLevel L) :: _, _) = _
    rw [hclamp]
    rfl
  have hw2 : ∀ lvl : Int,
      walkContent [CItem.dict { type := "note", text := some t }] none false lvl
        = ([add_empty_paragraph, add_note (pyStrip t) lvl, add_empty_paragraph], lvl) := by
    intro lvl
    rw [walk_note_eq { type := "note", text := some t } [] none false lvl ht rfl]
    rfl
  have htbl : ("" : String) ≠ "table" := by decide
  have hs1 : renderSection { content := [CItem.dict { type := "step", text := some "x", level := L }] } 1
      = ([Block.para (add_numbered_step (pyStrip "x") L)], L) := by
    simp [renderSection, hw1, htbl]
  have hs2 : ∀ lvl : Int,
      renderSection { content := [CItem.dict { type := "note", text := some t }] } lvl
        = ([Block.para add_empty_paragraph, Block.para (add_note (pyStrip t) lvl),
            Block.para add_empty_paragraph], lvl) := by
    intro lvl
    simp [renderSection, hw2 lvl, htbl]
  refine ⟨?_, rfl, ?_, ?_, ?_, ?_⟩
  · intro d rest ll hb lvl hty htd
    exact walk_note_eq d rest ll hb lvl htd hty
  · interval_cases L <;> decide
  · simp [generate_sop_doc, renderSections_cons_cons, hs1,
      show renderSections [({ content := [CItem.dict { type := "note", text := some t }] } : SectionData)] L
          = renderSection { content := [CItem.dict { type := "note", text := some t }] } L from rfl,
      hs2 L]
  · simp [generate_sop_doc,
      show renderSections [({ content := [CItem.dict { type := "note", text := some t }] } : SectionData)] 1
          = renderSection { content := [CItem.dict { type := "note", text := some t }] } 1 from rfl,
      hs2 1]
  · rfl

/-- C6, witness at a concrete note text and step level. -/
theorem C6_witness :
    Block.para (add_note (pyStrip "take care") 2)
      ∈ (generate_sop_doc
          { sections :=
              [ { content := [CItem.dict { type := "step", text := some "x", level := 2 }] },
                { content := [CItem.dict { type := "note", text := some "take care" }] } ] }).1 :=
  (C6_amended "take care" (by decide) 2 (by decide) (by decide)).2.2.2.1

lemma revisionDataRows_length (rows : List CItem) :
    ∀ k, (revisionDataRows rows k).length = rows.length := by
  induction rows with
  | nil => intro k; rfl
  | cons rd rest ih => intro k; simp [revisionDataRows, ih (k + 1)]

/-- C7: the revision table built from N raw rows has N+1 rows: a bold,
bottom-bordered header row, then one data row per raw row; each data row has
exactly 3 cells whose texts are the raw values padded with empty strings to
3 and truncated to 3; the only cell borders are the header's bottom border
and the first data row's top border. -/
theorem C7_revision_table (rows_data : List CItem) :
    (add_revision_table rows_data).length = rows_data.length + 1 ∧
    (add_revision_table rows_data).get? 0 = some revisionHeaderRow ∧
    (∀ c ∈ revisionHeaderRow.cells, c.bold = true ∧ c.bottomBorder = true ∧ c.topBorder = false) ∧
    (∀ (i : Nat) (rd : CItem), rows_data.get? i = some rd →
       (add_revision_table rows_data).get? (i + 1) = some (mkDataRow rd i) ∧
       (mkDataRow rd i).cells.length = 3 ∧
       (mkDataRow rd i).cells.map (fun c => c.text) = padTo3 (rowValues rd) ∧
       ∀ c ∈ (mkDataRow rd i).cells, c.bottomBorder = false ∧ c.topBorder = decide (i = 0)) ∧
    (∀ vs : List String, (padTo3 vs).length = 3 ∧
       (vs.length ≤ 3 → padTo3 vs = vs ++ List.replicate (3 - vs.length) "") ∧
       (3 ≤ vs.length → padTo3 vs = vs.take 3)) := by
  refine ⟨?_, rfl, revisionHeaderRow_cells, ?_, ?_⟩
  · show (revisionHeaderRow :: revisionDataRows rows_data 0).length = rows_data.length + 1
    simp [revisionDataRows_length rows_data 0]
  · intro i rd hrd
    refine ⟨?_, mkDataRow_cells_length rd i, mkDataRow_texts rd i, mkDataRow_cell_borders rd i⟩
    show (revisionHeaderRow :: revisionDataRows rows_data 0).get? (i + 1) = some (mkDataRow rd i)
    rw [List.get?_cons_succ, revisionDataRows_get rows_data 0 i, hrd]
    simp
  · intro vs
    refine ⟨padTo3_length vs, ?_, ?_⟩
    · intro hle
      have hlen : (vs ++ List.replicate (3 - vs.length) "").length ≤ 3 := by
        simp
        omega
      rw [padTo3, List.take_of_length_le hlen]
    · intro hge
      have h0 : 3 - vs.length = 0 := by omega
      rw [padTo3, h0]
      simp

/-- C7, witness: a malformed four-part row is truncated to 3 cells in the
first data row of a one-row table. -/
theorem C7_witness :
    (add_revision_table [CItem.str "a|||b|||c|||d"]).get? (0 + 1)
        = some (mkDataRow (CItem.str "a|||b|||c|||d") 0) ∧
    (mkDataRow (CItem.str "a|||b|||c|||d") 0).cells.length = 3 ∧
    (mkDataRow (CItem.str "a|||b|||c|||d") 0).cells.map (fun c => c.text)
        = padTo3 (rowValues (CItem.str "a|||b|||c|||d")) ∧
    ∀ c ∈ (mkDataRow (CItem.str "a|||b|||c|||d") 0).cells,
      c.bottomBorder = false ∧ c.topBorder = decide (0 = 0) :=
  (C7_revision_table [CItem.str "a|||b|||c|||d"]).2.2.2.1 0 (CItem.str "a|||b|||c|||d") rfl

/-- C8: a Step item's level is clamped into [1,5] before rendering
(`max 1 (min 5 level)`), levels already in range are unchanged, the walk
emits the numbered-step paragraph at the clamped level and records it as the
last step level, and the resulting zero-based numbering reference always
lies in [0,4] — so an out-of-range level never derails the render. -/
theorem C8_step_level_clamped (d : ItemDict) (rest : List CItem) (ll : Option String) (hb : Bool)
    (lvl : Int) (hty : d.type = "step") (ht : pyStrip (d.text.getD "") ≠ "") :
    (1 ≤ clampLevel d.level ∧ clampLevel d.level ≤ 5) ∧
    ((1 ≤ d.level ∧ d.level ≤ 5) → clampLevel d.level = d.level) ∧
    walkContent (CItem.dict d :: rest) ll hb lvl
      = (add_numbered_step (pyStrip (d.text.getD "")) (clampLevel d.level) ::
          (walkContent rest none false (clampLevel d.level)).1,
         (walkContent rest none false (clampLevel d.level)).2) ∧
    (add_numbered_step (pyStrip (d.text.getD "")) (clampLevel d.level)).numIlvl
        = some (clampLevel d.level - 1) ∧
    (0 ≤ clampLevel d.level - 1 ∧ clampLevel d.level - 1 ≤ 4) := by
  refine ⟨?_, ?_, walk_step_eq d rest ll hb lvl ht hty, rfl, ?_⟩
  · unfold clampLevel
    omega
  · intro h
    unfold clampLevel
    omega
  · unfold clampLevel
    omega

/-- C8, witness at a concrete step with out-of-range level 99. -/
theorem C8_witness :
    walkContent [CItem.dict { type := "step", text := some "go", level := 99 }] none false 1
      = (add_numbered_step (pyStrip ((some "go").getD "")) (clampLevel 99) ::
          (walkContent [] none false (clampLevel 99)).1,
         (walkContent [] none false (clampLevel 99)).2) :=
  (C8_step_level_clamped { type := "step", text := some "go", level := 99 } [] none false 1 rfl
    (by decide)).2.2.1

/-- C9: rendering N sections emits a horizontal rule after each section
except the last — the output is a prefix holding exactly N-1 rules followed
by the last section's rendering, which contains none — and a full document's
block list contains exactly one more rule (the one closing the title
block). -/
theorem C9_horizontal_rules (secs : List SectionData) (s : SectionData) (lvl : Int) :
    (∃ pre lvl2,
       renderSections (secs ++ [s]) lvl
         = (pre ++ (renderSection s lvl2).1, (renderSection s lvl2).2)
       ∧ pre.countP isHRuleB = secs.length
       ∧ ∀ b ∈ (renderSection s lvl2).1, isHRuleB b = false) ∧
    ((renderSections (secs ++ [s]) lvl).1).countP isHRuleB = (secs ++ [s]).length - 1 ∧
    ∀ data : SopData,
      ((generate_sop_doc data).1).countP isHRuleB = 1 + (data.sections.length - 1) := by
  refine ⟨?_, ?_, ?_⟩
  · obtain ⟨pre, lvl2, heq, hc⟩ := renderSections_last secs s lvl
    exact ⟨pre, lvl2, heq, hc, renderSection_no_rule s lvl2⟩
  · rw [renderSections_countP]
  · intro data
    simp only [generate_sop_doc]
    rw [List.countP_append, renderSections_countP]
    simp [List.countP_cons, isHRuleB, add_horizontal_rule, add_text_paragraph,
      add_empty_paragraph]

/-- C9, witness: two sections give exactly one separating rule. -/
theorem C9_witness :
    ((renderSections ([({ heading := "A" } : SectionData)] ++ [({ heading := "B" } : SectionData)]) 1).1).countP
        isHRuleB
      = ([({ heading := "A" } : SectionData)] ++ [({ heading := "B" } : SectionData)]).length - 1 :=
  (C9_horizontal_rules [{ heading := "A" }] { heading := "B" } 1).2.1

/-- C10: the document id and title defaults are asymmetric: the `SOP ID` line
and the footer both show `sopIdOf`, which substitutes "SOP-ID TBD" when
`sop_id` is absent or the empty string (and keeps any non-empty value),
while the title line shows `sopTitleOf`, which substitutes "Generated SOP"
only when `title` is absent — an explicitly supplied title, the empty string
included, is rendered verbatim. -/
theorem C10_default_asymmetry (data : SopData) :
    (((generate_sop_doc data).1).get? 1
        = some (Block.para (add_text_paragraph ("SOP ID: " ++ sopIdOf data))) ∧
     ((generate_sop_doc data).1).get? 0
        = some (Block.para
            { runs := [{ text := "SOP Title: " ++ sopTitleOf data, bold := true, size := 18 }] }) ∧
     ((generate_sop_doc data).2).default_paras.get? 1
        = some { runs := [{ text := sopTitleOf data ++ " [" ++ sopIdOf data ++ "]", size := 10 }],
                 alignCenter := true }) ∧
    ((data.sop_id = none ∨ data.sop_id = some "") → sopIdOf data = "SOP-ID TBD") ∧
    (∀ v, data.sop_id = some v → v ≠ "" → sopIdOf data = v) ∧
    (data.title = none → sopTitleOf data = "Generated SOP") ∧
    (∀ v, data.title = some v → sopTitleOf data = v) := by
  refine ⟨⟨rfl, rfl, rfl⟩, ?_, ?_, ?_, ?_⟩
  · intro h
    rcases h with h | h <;> simp [sopIdOf, h]
  · intro v hv hne
    simp [sopIdOf, hv, hne]
  · intro h
    simp [sopTitleOf, h]
  · intro v hv
    simp [sopTitleOf, hv]

/-- C10, witness: explicit empty id falls back to the TBD marker while an
explicit empty title stays empty. -/
theorem C10_witness :
    sopIdOf { sop_id := some "", title := some "" } = "SOP-ID TBD" ∧
    sopTitleOf { sop_id := some "", title := some "" } = "" :=
  ⟨(C10_default_asymmetry { sop_id := some "", title := some "" }).2.1 (Or.inr rfl),
   (C10_default_asymmetry { sop_id := some "", title := some "" }).2.2.2.2 "" rfl⟩

end SopDoc

